import Mathlib

/-!
Verification of the token-supervisor core of `client/allocrunnerv2/taskrunner/vault_hook.go`
and of the script-check status classification exercised by the consul script-check tests.

The Go code is shallowly embedded: the supervisor goroutine `(*vaultHook).run` is a loop
that interacts with an external environment (the Vault client, the task lifecycle, the
filesystem and the scheduler).  We model one iteration of the loop as a pure function over
the supervisor's local state together with an explicit record of environment responses,
consumed in call order per call site; the whole goroutine is the fueled iteration of that
function.  Machine integers (Go `time.Duration`, an `int64` of nanoseconds) are modelled as
`Int` with explicit two's-complement wrap at 64 bits where the source can overflow.
-/

namespace NomadSpec

/-- `vaultBackoffBaseline` from vault_hook.go:24: `5 * time.Second`, in nanoseconds
(`time.Duration` is an `int64` count of nanoseconds). -/
def vaultBackoffBaseline : Int := 5000000000

/-- `vaultBackoffLimit` from vault_hook.go:28: `3 * time.Minute`, in nanoseconds. -/
def vaultBackoffLimit : Int := 180000000000

/-- Two's-complement wrap of an integer into the `int64` range, used wherever the Go
source performs non-constant `int64` arithmetic that can overflow. -/
def wrap64 (x : Int) : Int :=
  let r := x % 18446744073709551616
  if r < 9223372036854775808 then r else r - 18446744073709551616

/-- The backoff computation of `deriveVaultToken` (vault_hook.go:304-307):
`backoff := (1 << (2 * uint64(attempts))) * vaultBackoffBaseline` followed by
`if backoff > vaultBackoffLimit { backoff = vaultBackoffLimit }`.
The untyped constant `1` assumes type `time.Duration` (`int64`), so the shift is an
`int64` shift (a shift count of 64 or more yields 0, and both the shift and the product
wrap at 64 bits); the comparison with the limit is a signed comparison. -/
def backoffDuration (attempts : Nat) : Int :=
  let shifted := wrap64 (2 ^ (2 * attempts))
  let backoff := wrap64 (shifted * vaultBackoffBaseline)
  if backoff > vaultBackoffLimit then vaultBackoffLimit else backoff

/-- The schedule the spec claims: `delay(n) = min(BASELINE * 2 ^ (2 * n), LIMIT)`
(spec section 4.B), stated over unbounded integers. -/
def specBackoffFormula (n : Nat) : Int :=
  min (vaultBackoffBaseline * 2 ^ (2 * n)) vaultBackoffLimit

/-- `structs.VaultChangeModeNoop` ("noop"). -/
def vaultChangeModeNoop : String := "noop"

/-- `structs.VaultChangeModeSignal` ("signal"). -/
def vaultChangeModeSignal : String := "signal"

/-- `structs.VaultChangeModeRestart` ("restart"). -/
def vaultChangeModeRestart : String := "restart"

/-- A response of `VaultClient.DeriveToken(alloc, [taskName])`: either a map of task
name to token (Go map modelled as an association list) or an error carrying the two
classifier bits `structs.IsServerSide` and `structs.IsRecoverable` plus its message. -/
inductive DeriveResp where
  | ok (tokens : List (String × String))
  | err (serverSide : Bool) (recoverable : Bool) (msg : String)
deriving DecidableEq

/-- Observable interactions of the `run` goroutine with its collaborators, in program
order.  `clear`/`setFuture` are the calls on the token future; `sleep` is a backoff
timer that actually fired (duration in nanoseconds as computed by the source);
`write` is the `writeToken` call with its outcome; `renewStart` is `RenewToken` with
its outcome; `reactInvoke` marks entry into the change-mode reaction block (the
`if updatedToken` body) with the token being applied; `reactSignal`/`reactRestart`/
`logInvalidMode` are the reaction's lifecycle calls per change mode; `updater` is
`updater.updatedVaultToken`; `stopRenew` is `StopRenewToken(future.Get())`; `kill` is
`lifecycle.Kill("vault", reason, failure)`. -/
inductive Event where
  | clear
  | deriveSuccess (token : String)
  | sleep (d : Int)
  | write (token : String) (ok : Bool)
  | renewStart (token : String) (ok : Bool)
  | setFuture (token : String)
  | reactInvoke (token : String)
  | reactSignal (sig : String) (ok : Bool)
  | reactRestart
  | logInvalidMode (mode : String)
  | updater (token : String)
  | stopRenew (token : String)
  | kill (reason : String) (failure : Bool)
deriving DecidableEq

/-- The per-task configuration the hook reads: the vault stanza's change mode and
change signal, the result of `signals.Parse(changeSignal)` (the parser lives in the
external consul-template library and is deterministic, so it is modelled as an oracle
carried in the configuration), and the task name used to select the derived token. -/
structure Config where
  changeMode : String
  changeSignal : String
  sigParse : Except String String
  taskName : String

/-- The environment's responses, one queue per call site, consumed in call order:
`derives` for `DeriveToken`; `writes` for `writeToken` (`true` = success);
`renewStarts` for `RenewToken` (`true` = success); `renewFails` for the select on the
renewal channel (`true` = the channel delivered a failure, `false` = the context was
cancelled first); `topCancels` for the non-blocking cancellation check at the top of
the loop (`true` = context done); `sleepCancels` for the select during a backoff wait
(`true` = cancelled, `false` = the timer fired); `sigSends` for `lifecycle.Signal`
(`none` = delivered, `some msg` = error). -/
structure Env where
  derives : List DeriveResp
  writes : List Bool
  renewStarts : List Bool
  renewFails : List Bool
  topCancels : List Bool
  sleepCancels : List Bool
  sigSends : List (Option String)
deriving DecidableEq

/-- Go map indexing `tokens[h.taskName]`: the zero value "" when the key is absent. -/
def lookupToken (tokens : List (String × String)) (name : String) : String :=
  match tokens.find? (fun p => p.1 == name) with
  | some p => p.2
  | none => ""

/-- Result of the `deriveVaultToken` loop: a token plus the unconsumed environment
queues, or manager exit (kill or cancellation), or blocked awaiting a response. -/
inductive DeriveOut where
  | success (token : String) (derives : List DeriveResp) (sleepCancels : List Bool)
  | exited
  | blocked
deriving DecidableEq

/-- Embeds `(*vaultHook).deriveVaultToken` (vault_hook.go:282-320): repeatedly call
`DeriveToken`; on success return `tokens[taskName]`; on a server-side error kill with
"server error deriving vault token: <err>" and exit; on a non-recoverable error kill
with "failed to derive token: <err>" and exit; otherwise compute the backoff for the
current zero-based attempt index and wait, exiting if cancelled during the wait. -/
def deriveLoop (cfg : Config) (derives : List DeriveResp) (sleepCancels : List Bool)
    (attempts : Nat) : List Event × DeriveOut :=
  match derives with
  | [] => ([], DeriveOut.blocked)
  | DeriveResp.ok tokens :: rest =>
      ([Event.deriveSuccess (lookupToken tokens cfg.taskName)],
       DeriveOut.success (lookupToken tokens cfg.taskName) rest sleepCancels)
  | DeriveResp.err serverSide recoverable msg :: rest =>
      if serverSide then
        ([Event.kill ("server error deriving vault token: " ++ msg) true],
         DeriveOut.exited)
      else if !recoverable then
        ([Event.kill ("failed to derive token: " ++ msg) true], DeriveOut.exited)
      else
        match sleepCancels with
        | [] => ([], DeriveOut.blocked)
        | c :: cs =>
          if c then ([], DeriveOut.exited)
          else
            let rec' := deriveLoop cfg rest cs (attempts + 1)
            (Event.sleep (backoffDuration attempts) :: rec'.1, rec'.2)

/-- Result of the change-mode reaction block: the task was killed (the goroutine
returns), or the block is awaiting the `Signal` response, or control proceeds to the
renewal select with the updated `updatedToken` flag and signal-response queue. -/
inductive PubOut where
  | killed
  | blocked
  | proceed (updatedToken : Bool) (sigSends : List (Option String))
deriving DecidableEq

/-- Embeds the body between `h.future.Set(token)` and the renewal select
(vault_hook.go:229-262): when `updatedToken` is set, switch on the change mode —
`signal` parses the change signal (parse failure kills with "failed to parse signal:
<err>" and returns) and sends it (send failure kills with "failed to send signal:
<err>" and returns); `restart` requests a non-failure restart; `noop` falls through
to the default branch which logs an invalid change mode.  Afterwards `updatedToken`
is reset and `updater.updatedVaultToken(token)` is called. -/
def publishReact (cfg : Config) (token : String) (updatedToken : Bool)
    (sigSends : List (Option String)) : List Event × PubOut :=
  if updatedToken then
    if cfg.changeMode == vaultChangeModeSignal then
      match cfg.sigParse with
      | Except.error e =>
          ([Event.reactInvoke token, Event.kill ("failed to parse signal: " ++ e) true],
           PubOut.killed)
      | Except.ok s =>
          match sigSends with
          | [] => ([Event.reactInvoke token], PubOut.blocked)
          | none :: srest =>
              ([Event.reactInvoke token, Event.reactSignal s true, Event.updater token],
               PubOut.proceed false srest)
          | some m :: _ =>
              ([Event.reactInvoke token, Event.reactSignal s false,
                Event.kill ("failed to send signal: " ++ m) true], PubOut.killed)
    else if cfg.changeMode == vaultChangeModeRestart then
      ([Event.reactInvoke token, Event.reactRestart, Event.updater token],
       PubOut.proceed false sigSends)
    else
      ([Event.reactInvoke token, Event.logInvalidMode cfg.changeMode,
        Event.updater token], PubOut.proceed false sigSends)
  else ([], PubOut.proceed updatedToken sigSends)

/-- Result of one iteration of the `OUTER` loop: the goroutine returned, or is
blocked awaiting an environment response, or loops again (`goto OUTER` / the `for`
back edge) with the new `updatedToken` flag, the token currently stored in the
future, and the remaining environment.  On both back edges the local `token`
variable has been set to the empty string. -/
inductive IterOut where
  | exited
  | blocked
  | next (updatedToken : Bool) (futureToken : String) (env : Env)
deriving DecidableEq

/-- Result of the token-acquisition section of an iteration (the `if token == ""`
block, vault_hook.go:195-215): a usable token plus remaining environment, manager
exit, or blocked. -/
inductive AcqOut where
  | ready (token : String) (env : Env)
  | exited
  | blocked
deriving DecidableEq

/-- Embeds vault_hook.go:195-215: when the loop's `token` is empty, derive a fresh
token and write it to disk — a write failure kills the task with
"failed to write Vault token to disk" and returns; when `token` is non-empty
(restored or kept from a previous binding) it is used as is, with no write. -/
def acquireToken (cfg : Config) (token : String) (env : Env) : List Event × AcqOut :=
  if token == "" then
    match deriveLoop cfg env.derives env.sleepCancels 0 with
    | (devs, DeriveOut.blocked) => (devs, AcqOut.blocked)
    | (devs, DeriveOut.exited) => (devs, AcqOut.exited)
    | (devs, DeriveOut.success t ds sc) =>
      match env.writes with
      | [] => (devs, AcqOut.blocked)
      | w :: ws =>
        if w then
          (devs ++ [Event.write t true],
           AcqOut.ready t { env with derives := ds, sleepCancels := sc, writes := ws })
        else
          (devs ++ [Event.write t false,
            Event.kill "failed to write Vault token to disk" true], AcqOut.exited)
  else ([], AcqOut.ready token env)

/-- Embeds vault_hook.go:217-276, from the `RenewToken` call to the renewal select.
A `RenewToken` error clears the loop's token and jumps back to `OUTER` leaving
`updatedToken` untouched; on success the future is set, the reaction block runs, and
the iteration blocks on the renewal channel versus cancellation — a renewal failure
clears the token, stops renewal, and sets `updatedToken` exactly when the change mode
is not `noop`; cancellation stops renewal and returns. -/
def renewPhase (cfg : Config) (t : String) (updatedToken : Bool) (env : Env) :
    List Event × IterOut :=
  match env.renewStarts with
  | [] => ([], IterOut.blocked)
  | r :: rs =>
    let env1 := { env with renewStarts := rs }
    if r then
      let pub := publishReact cfg t updatedToken env1.sigSends
      let pre := Event.renewStart t true :: Event.setFuture t :: pub.1
      match pub.2 with
      | PubOut.killed => (pre, IterOut.exited)
      | PubOut.blocked => (pre, IterOut.blocked)
      | PubOut.proceed u' sends =>
        let env2 := { env1 with sigSends := sends }
        match env2.renewFails with
        | [] => (pre, IterOut.blocked)
        | f :: fs =>
          let env3 := { env2 with renewFails := fs }
          if f then
            (pre ++ [Event.stopRenew t],
             IterOut.next (if cfg.changeMode == vaultChangeModeNoop then u' else true)
               t env3)
          else (pre ++ [Event.stopRenew t], IterOut.exited)
    else ([Event.renewStart t false], IterOut.next updatedToken "" env1)

/-- One iteration of the `OUTER` loop of `(*vaultHook).run` (vault_hook.go:180-276):
the non-blocking cancellation check (which on cancellation stops renewal with the
future's current value and returns), `future.Clear()`, token acquisition, and the
renewal phase. -/
def runIter (cfg : Config) (token : String) (updatedToken : Bool)
    (futureToken : String) (env : Env) : List Event × IterOut :=
  match env.topCancels with
  | [] => ([], IterOut.blocked)
  | c :: tc =>
    if c then ([Event.stopRenew futureToken], IterOut.exited)
    else
      let env1 := { env with topCancels := tc }
      match acquireToken cfg token env1 with
      | (aevs, AcqOut.blocked) => (Event.clear :: aevs, IterOut.blocked)
      | (aevs, AcqOut.exited) => (Event.clear :: aevs, IterOut.exited)
      | (aevs, AcqOut.ready t env2) =>
        let rp := renewPhase cfg t updatedToken env2
        (Event.clear :: aevs ++ rp.1, rp.2)

/-- How a bounded observation of the goroutine ends: it returned, it is blocked
awaiting an environment response, or the observation bound (fuel) was exhausted. -/
inductive Outcome where
  | exited
  | blocked
  | outOfFuel
deriving DecidableEq

/-- The `OUTER` loop of `(*vaultHook).run`, iterated up to `fuel` times.  Each back
edge re-enters with an empty loop token (both back edges in the source clear it). -/
def runLoop (cfg : Config) (fuel : Nat) (token : String) (updatedToken : Bool)
    (futureToken : String) (env : Env) : List Event × Outcome :=
  match fuel with
  | 0 => ([], Outcome.outOfFuel)
  | Nat.succ fuel' =>
    match runIter cfg token updatedToken futureToken env with
    | (evs, IterOut.exited) => (evs, Outcome.exited)
    | (evs, IterOut.blocked) => (evs, Outcome.blocked)
    | (evs, IterOut.next u ft env') =>
      let rest := runLoop cfg fuel' "" u ft env'
      (evs ++ rest.1, rest.2)

/-- `(*vaultHook).run(token)` (vault_hook.go:172): `updatedToken` starts false and
the freshly created future is empty. -/
def run (cfg : Config) (token0 : String) (env : Env) (fuel : Nat) :
    List Event × Outcome :=
  runLoop cfg fuel token0 false "" env

/-- The tokens passed to `future.Set` in a trace, in order. -/
def setFutures (evs : List Event) : List String :=
  evs.filterMap fun e => match e with | Event.setFuture t => some t | _ => none

/-- The tokens of successful derivations in a trace, in order. -/
def deriveSuccesses (evs : List Event) : List String :=
  evs.filterMap fun e => match e with | Event.deriveSuccess t => some t | _ => none

/-- The tokens with which the change-mode reaction block was entered, in order. -/
def reactInvokes (evs : List Event) : List String :=
  evs.filterMap fun e => match e with | Event.reactInvoke t => some t | _ => none

/-- The arguments of `StopRenewToken` calls in a trace, in order. -/
def stopRenews (evs : List Event) : List String :=
  evs.filterMap fun e => match e with | Event.stopRenew t => some t | _ => none

/-- The `Kill` reasons in a trace, in order. -/
def killReasons (evs : List Event) : List String :=
  evs.filterMap fun e => match e with | Event.kill r _ => some r | _ => none

/-- A list of `DeriveToken` responses is benign when every successful response maps
the task name to a non-empty token.  The Go client is expected to satisfy this; the
source itself does not check it. -/
def GoodDerives (cfg : Config) (l : List DeriveResp) : Prop :=
  ∀ tokens, DeriveResp.ok tokens ∈ l → lookupToken tokens cfg.taskName ≠ ""

/-- The `tokenFuture` of vault_hook.go:333-390.  A wait handle is a channel; channels
are given fresh numeric names, and a handle is ready exactly when its channel has
been closed.  `waiting` is the queue of not-yet-closed handles, `closed` the set of
closed ones; `set` and `token` are the fields of the source struct.  The mutex is
not modelled: every operation is a single serialized step. -/
structure TokenFuture where
  token : String
  set : Bool
  waiting : List Nat
  nextId : Nat
  closed : List Nat
deriving DecidableEq

/-- `newTokenFuture` (vault_hook.go:345): all fields zero. -/
def newTokenFuture : TokenFuture :=
  { token := "", set := false, waiting := [], nextId := 0, closed := [] }

/-- `(*tokenFuture).Wait` (vault_hook.go:351-363): make a fresh channel; if the
future is set, close it and return it, otherwise append it to the waiting queue. -/
def TokenFuture.Wait (f : TokenFuture) : TokenFuture × Nat :=
  if f.set then
    ({ f with nextId := f.nextId + 1, closed := f.nextId :: f.closed }, f.nextId)
  else
    ({ f with nextId := f.nextId + 1, waiting := f.waiting ++ [f.nextId] }, f.nextId)

/-- `(*tokenFuture).Set` (vault_hook.go:366-376): record the token, mark the future
set, close every waiting channel and empty the queue. -/
def TokenFuture.Set (f : TokenFuture) (t : String) : TokenFuture :=
  { f with set := true, token := t, closed := f.waiting ++ f.closed, waiting := [] }

/-- `(*tokenFuture).Clear` (vault_hook.go:379-385): empty the token and unset the
future; closed channels stay closed and the waiting queue is untouched. -/
def TokenFuture.Clear (f : TokenFuture) : TokenFuture :=
  { f with token := "", set := false }

/-- `(*tokenFuture).Get` (vault_hook.go:388-390). -/
def TokenFuture.Get (f : TokenFuture) : String := f.token

/-- A wait handle is ready when its channel has been closed. -/
def TokenFuture.ready (f : TokenFuture) (h : Nat) : Bool := f.closed.contains h

/-- Consul health-status constant `api.HealthPassing`. -/
def healthPassing : String := "passing"

/-- Consul health-status constant `api.HealthWarning`. -/
def healthWarning : String := "warning"

/-- Consul health-status constant `api.HealthCritical`. -/
def healthCritical : String := "critical"

/-- Modelled from the spec: the `scriptCheck` run loop's outcome classification
(spec section 4.G, step 3).  The implementation of `newScriptCheck`/`(*scriptCheck).run`
is not among the provided sources — only its test file is — so the classification is
taken from the spec's words: an executor error (including timeout-induced
termination) gives status critical with the error text as output; otherwise exit
code 0 gives passing, 1 gives warning, and 2 or more gives critical, with the raw
stdout as output.  The result is the `(output, status)` pair passed to
`UpdateTTL(checkID, output, status)`. -/
def scriptCheckReport (stdout : String) (code : Nat) (err : Option String) :
    String × String :=
  match err with
  | some e => (e, healthCritical)
  | none =>
    if code = 0 then (stdout, healthPassing)
    else if code = 1 then (stdout, healthWarning)
    else (stdout, healthCritical)

/-- The output of the test's `simpleExec` executor (part_000:146-148):
`fmt.Sprintf("code=%d err=%v", code, err)`, where a nil Go error formats as
"<nil>" and a non-nil error formats as its message. -/
def simpleExecOutput (code : Nat) (err : Option String) : String :=
  "code=" ++ toString code ++ " err=" ++
    (match err with | none => "<nil>" | some e => e)

theorem reactInvokes_append (l1 l2 : List Event) :
    reactInvokes (l1 ++ l2) = reactInvokes l1 ++ reactInvokes l2 :=
  List.filterMap_append l1 l2 _

theorem deriveSuccesses_append (l1 l2 : List Event) :
    deriveSuccesses (l1 ++ l2) = deriveSuccesses l1 ++ deriveSuccesses l2 :=
  List.filterMap_append l1 l2 _

theorem setFutures_append (l1 l2 : List Event) :
    setFutures (l1 ++ l2) = setFutures l1 ++ setFutures l2 :=
  List.filterMap_append l1 l2 _

theorem stopRenews_append (l1 l2 : List Event) :
    stopRenews (l1 ++ l2) = stopRenews l1 ++ stopRenews l2 :=
  List.filterMap_append l1 l2 _

theorem reactInvokes_cons (e : Event) (l : List Event) :
    reactInvokes (e :: l) =
      (match e with | Event.reactInvoke t => [t] | _ => []) ++ reactInvokes l := by
  cases e <;> simp [reactInvokes]

theorem deriveSuccesses_cons (e : Event) (l : List Event) :
    deriveSuccesses (e :: l) =
      (match e with | Event.deriveSuccess t => [t] | _ => []) ++ deriveSuccesses l := by
  cases e <;> simp [deriveSuccesses]

theorem setFutures_cons (e : Event) (l : List Event) :
    setFutures (e :: l) =
      (match e with | Event.setFuture t => [t] | _ => []) ++ setFutures l := by
  cases e <;> simp [setFutures]

theorem stopRenews_cons (e : Event) (l : List Event) :
    stopRenews (e :: l) =
      (match e with | Event.stopRenew t => [t] | _ => []) ++ stopRenews l := by
  cases e <;> simp [stopRenews]

theorem reactInvokes_nil : reactInvokes [] = [] := rfl

theorem deriveSuccesses_nil : deriveSuccesses [] = [] := rfl

theorem setFutures_nil : setFutures [] = [] := rfl

theorem stopRenews_nil : stopRenews [] = [] := rfl

theorem backoffDuration_le_limit (n : Nat) : backoffDuration n ≤ vaultBackoffLimit := by
  unfold backoffDuration
  dsimp only
  split
  · exact le_refl _
  · exact le_of_not_lt (by assumption)

/-- C4: the claimed schedule `delay(n) = min(5s * 2^(2n), 3min)` holds only up to
`n = 16`.  At `n = 17` the `int64` product `5e9 * 2^34` wraps to a negative duration
(so `time.After` fires immediately instead of waiting 3 minutes), and from `n = 28`
on the product wraps to exactly 0.  The baseline case `delay(0) = 5 s` and the upper
bound `delay(n) ≤ 3 min` do hold. -/
theorem backoff_overflow_c4 :
    backoffDuration 0 = 5000000000 ∧
    (∀ n : Fin 17, backoffDuration n.val = specBackoffFormula n.val) ∧
    backoffDuration 17 = -6334374448547758080 ∧
    backoffDuration 17 < 0 ∧
    specBackoffFormula 17 = 180000000000 ∧
    backoffDuration 28 = 0 ∧
    (∀ n : Nat, backoffDuration n ≤ vaultBackoffLimit) :=
  ⟨by decide, by decide, by decide, by decide, by decide, by decide,
   backoffDuration_le_limit⟩

/-- C3, counterexample: a server-side (and even recoverable) derivation error kills
the task with reason "server error deriving vault token: boom" — not, as the claim
has it, "server error deriving token: boom". -/
theorem derive_kill_reason_c3_counterexample :
    (deriveLoop ⟨"noop", "", Except.error "", "web"⟩
        [DeriveResp.err true true "boom"] [] 0).1 =
      [Event.kill "server error deriving vault token: boom" true] ∧
    "server error deriving vault token: boom" ≠ "server error deriving token: boom" := by
  exact ⟨rfl, by decide⟩

/-- C3 (amended): derivation errors are classified in order — server-side first
(fatal even when recoverable, reason "server error deriving vault token: <err>",
failure true), then non-recoverable (fatal, reason "failed to derive token: <err>",
failure true); only a non-server-side recoverable error backs off with the delay for
the current zero-based attempt index and retries with the index incremented, the
index being a parameter local to the current derivation run. -/
theorem derive_classification_c3 :
    (∀ (cfg : Config) (rcv : Bool) (msg : String) (ds : List DeriveResp)
        (sc : List Bool) (a : Nat),
      deriveLoop cfg (DeriveResp.err true rcv msg :: ds) sc a =
        ([Event.kill ("server error deriving vault token: " ++ msg) true],
         DeriveOut.exited)) ∧
    (∀ (cfg : Config) (msg : String) (ds : List DeriveResp) (sc : List Bool) (a : Nat),
      deriveLoop cfg (DeriveResp.err false false msg :: ds) sc a =
        ([Event.kill ("failed to derive token: " ++ msg) true], DeriveOut.exited)) ∧
    (∀ (cfg : Config) (msg : String) (ds : List DeriveResp) (cs : List Bool) (a : Nat),
      deriveLoop cfg (DeriveResp.err false true msg :: ds) (false :: cs) a =
        (Event.sleep (backoffDuration a) :: (deriveLoop cfg ds cs (a + 1)).1,
         (deriveLoop cfg ds cs (a + 1)).2)) := by
  refine ⟨fun cfg rcv msg ds sc a => ?_, fun cfg msg ds sc a => ?_,
    fun cfg msg ds cs a => ?_⟩ <;> simp [deriveLoop]

/-- C7, counterexample: a failed token write kills the task with reason
"failed to write Vault token to disk" — not, as the claim has it,
"failed to write token to disk". -/
theorem write_fail_reason_c7_counterexample :
    (run ⟨"noop", "", Except.error "", "web"⟩ ""
        ⟨[DeriveResp.ok [("web", "t1")]], [false], [], [], [false], [], []⟩ 2).1 =
      [Event.clear, Event.deriveSuccess "t1", Event.write "t1" false,
       Event.kill "failed to write Vault token to disk" true] ∧
    "failed to write Vault token to disk" ≠ "failed to write token to disk" := by
  exact ⟨by decide, by decide⟩

/-- C7 (amended): if persisting a freshly derived token fails, the supervisor kills
the task with reason "failed to write Vault token to disk" and failure true, and the
goroutine exits immediately: whatever the rest of the environment would answer, the
trace ends at the kill, with no renewal start and no publication of the token. -/
theorem write_fail_kills_c7 (cfg : Config) (m : List (String × String))
    (ds : List DeriveResp) (ws rs re tc sc : List Bool) (sg : List (Option String))
    (u : Bool) (ft : String) (fuel : Nat) :
    runLoop cfg (fuel + 1) "" u ft
        ⟨DeriveResp.ok m :: ds, false :: ws, rs, re, false :: tc, sc, sg⟩ =
      ([Event.clear, Event.deriveSuccess (lookupToken m cfg.taskName),
        Event.write (lookupToken m cfg.taskName) false,
        Event.kill "failed to write Vault token to disk" true], Outcome.exited) := by
  simp [runLoop, runIter, acquireToken, deriveLoop]

/-- C5: after a renewal-start failure the next derivation is immediate — between the
failed `RenewToken` and the next `DeriveToken` the trace holds only the loop-top
`future.Clear()`, with no backoff sleep — and the fresh derivation run restarts its
attempt index at 0, so its first retry delay is again `backoffDuration 0 = 5 s`. -/
theorem renewstart_fail_no_backoff_c5 (cfg : Config) (m : List (String × String))
    (msg : String) (fuel : Nat) :
    run cfg ""
        ⟨[DeriveResp.ok m, DeriveResp.err false true msg], [true], [false], [],
         [false, false], [false], []⟩ (fuel + 2) =
      ([Event.clear, Event.deriveSuccess (lookupToken m cfg.taskName),
        Event.write (lookupToken m cfg.taskName) true,
        Event.renewStart (lookupToken m cfg.taskName) false,
        Event.clear, Event.sleep (backoffDuration 0)], Outcome.blocked) ∧
    backoffDuration 0 = 5000000000 := by
  constructor
  · simp [run, runLoop, runIter, acquireToken, deriveLoop, renewPhase]
  · decide

/-- C9 (modelled from the spec, checked against `TestConsulScript_Exec_Codes`):
an executor error always yields status critical with the error text as output;
otherwise exit code 0 yields passing, 1 yields warning and any code ≥ 2 yields
critical, with the raw stdout as output.  The concrete cases are exactly the
test's table, with `simpleExec`'s stdout. -/
theorem script_check_codes_c9 :
    (∀ (out : String) (code : Nat) (e : String),
      scriptCheckReport out code (some e) = (e, healthCritical)) ∧
    (∀ out : String, scriptCheckReport out 0 none = (out, healthPassing)) ∧
    (∀ out : String, scriptCheckReport out 1 none = (out, healthWarning)) ∧
    (∀ (out : String) (k : Nat),
      scriptCheckReport out (k + 2) none = (out, healthCritical)) ∧
    (scriptCheckReport (simpleExecOutput 0 none) 0 none =
      (simpleExecOutput 0 none, healthPassing)) ∧
    (scriptCheckReport (simpleExecOutput 1 none) 1 none =
      (simpleExecOutput 1 none, healthWarning)) ∧
    (scriptCheckReport (simpleExecOutput 2 none) 2 none =
      (simpleExecOutput 2 none, healthCritical)) ∧
    (scriptCheckReport (simpleExecOutput 9000 none) 9000 none =
      (simpleExecOutput 9000 none, healthCritical)) ∧
    (scriptCheckReport (simpleExecOutput 0 (some "test error")) 0 (some "test error") =
      ("test error", healthCritical)) ∧
    (scriptCheckReport (simpleExecOutput 1 (some "test error")) 1 (some "test error") =
      ("test error", healthCritical)) := by
  refine ⟨fun out code e => rfl, fun out => rfl, fun out => rfl,
    fun out k => ?_, rfl, rfl, by decide, by decide, rfl, rfl⟩
  have h0 : k + 2 ≠ 0 := by omega
  have h1 : k + 2 ≠ 1 := by omega
  simp [scriptCheckReport, h0, h1]

/-- C8: the token future's one-shot contract.  A wait immediately after a set is
already ready; `Get` after `Set t` returns `t`; `Clear` empties the stored token,
unsets the future and leaves closed channels closed; and along the canonical
wait/set/wait/clear/wait/set history, a pre-set waiter is unblocked by the set,
handles that were ready stay ready across the clear, a post-clear waiter blocks
until the next set, and `Get` reads `t`, then (after clear) the empty string, then
`t'`. -/
theorem token_future_contract_c8 :
    (∀ (f : TokenFuture) (t : String),
      ((f.Set t).Wait.1).ready (f.Set t).Wait.2 = true) ∧
    (∀ (f : TokenFuture) (t : String), (f.Set t).Get = t) ∧
    (∀ f : TokenFuture, f.Clear.Get = "" ∧ f.Clear.set = false ∧
      f.Clear.closed = f.closed) ∧
    newTokenFuture.Get = "" ∧
    (∀ t t' : String,
      (newTokenFuture.Wait.1.ready newTokenFuture.Wait.2 = false) ∧
      ((newTokenFuture.Wait.1.Set t).ready newTokenFuture.Wait.2 = true) ∧
      ((newTokenFuture.Wait.1.Set t).Wait.1.ready (newTokenFuture.Wait.1.Set t).Wait.2
        = true) ∧
      ((newTokenFuture.Wait.1.Set t).Wait.1.Clear.ready newTokenFuture.Wait.2
        = true) ∧
      ((newTokenFuture.Wait.1.Set t).Wait.1.Clear.Wait.1.ready
        (newTokenFuture.Wait.1.Set t).Wait.1.Clear.Wait.2 = false) ∧
      (((newTokenFuture.Wait.1.Set t).Wait.1.Clear.Wait.1.Set t').ready
        (newTokenFuture.Wait.1.Set t).Wait.1.Clear.Wait.2 = true) ∧
      (newTokenFuture.Wait.1.Set t).Get = t ∧
      (newTokenFuture.Wait.1.Set t).Wait.1.Clear.Get = "" ∧
      ((newTokenFuture.Wait.1.Set t).Wait.1.Clear.Wait.1.Set t').Get = t') := by
  refine ⟨fun f t => ?_, fun f t => rfl, fun f => ⟨rfl, rfl, rfl⟩, rfl, fun t t' => ?_⟩
  · simp [TokenFuture.Set, TokenFuture.Wait, TokenFuture.ready]
  · refine ⟨?_, ?_, ?_, ?_, ?_, ?_, rfl, rfl, rfl⟩ <;>
      simp [newTokenFuture, TokenFuture.Set, TokenFuture.Wait, TokenFuture.Clear,
        TokenFuture.ready]

theorem publishReact_not_pending (cfg : Config) (t : String)
    (sg : List (Option String)) :
    publishReact cfg t false sg = ([], PubOut.proceed false sg) := by
  simp [publishReact]

/-- C1, counterexample: with change mode "signal" (≠ noop) and an empty initial
token, a derive / renewal-start-failure / re-derive / renewal-start-success run
never enters the change-mode reaction block — the code leaves `updatedToken`
untouched on a renewal-start failure, so the claimed
`rotation_pending := (change_mode ≠ noop)` does not happen and the next successful
cycle publishes the new token without reacting. -/
theorem renewstart_fail_c1_counterexample :
    (run ⟨"signal", "SIGHUP", Except.ok "SIGHUP", "web"⟩ ""
        ⟨[DeriveResp.ok [("web", "tok1")], DeriveResp.ok [("web", "tok2")]],
         [true, true], [false, true], [], [false, false], [], []⟩ 5).1 =
      [Event.clear, Event.deriveSuccess "tok1", Event.write "tok1" true,
       Event.renewStart "tok1" false, Event.clear, Event.deriveSuccess "tok2",
       Event.write "tok2" true, Event.renewStart "tok2" true,
       Event.setFuture "tok2"] ∧
    reactInvokes (run ⟨"signal", "SIGHUP", Except.ok "SIGHUP", "web"⟩ ""
        ⟨[DeriveResp.ok [("web", "tok1")], DeriveResp.ok [("web", "tok2")]],
         [true, true], [false, true], [], [false, false], [], []⟩ 5).1 = [] ∧
    "signal" ≠ vaultChangeModeNoop := by
  exact ⟨by decide, by decide, by decide⟩

/-- C1 (amended): when starting renewal fails, the supervisor discards the token and
returns to the top of the loop with `rotation_pending` (`updatedToken`) left
unchanged — it is not recomputed from the change mode.  Consequently a cycle entered
with `rotation_pending` false (in particular the first cycle after a fresh or
recovered start) does not invoke the ChangeReactor even after a renewal-start
failure and a successful re-derivation; only a renewal-stream failure can arm it. -/
theorem renewstart_fail_keeps_pending_c1 :
    (∀ (cfg : Config) (t : String) (u : Bool) (ds : List DeriveResp)
        (ws rs re tc sc : List Bool) (sg : List (Option String)),
      renewPhase cfg t u ⟨ds, ws, false :: rs, re, tc, sc, sg⟩ =
        ([Event.renewStart t false], IterOut.next u "" ⟨ds, ws, rs, re, tc, sc, sg⟩)) ∧
    (∀ (cfg : Config) (t : String) (env : Env),
      reactInvokes (renewPhase cfg t false env).1 = []) := by
  constructor
  · intro cfg t u ds ws rs re tc sc sg
    simp [renewPhase]
  · intro cfg t env
    unfold renewPhase
    cases env.renewStarts with
    | nil => simp [reactInvokes]
    | cons r rs =>
      cases r with
      | false => simp [reactInvokes]
      | true =>
        simp only [publishReact_not_pending]
        cases (⟨env.derives, env.writes, rs, env.renewFails, env.topCancels,
            env.sleepCancels, env.sigSends⟩ : Env).renewFails with
        | nil => simp [reactInvokes]
        | cons f fs => cases f <;> simp [reactInvokes, List.filterMap_append]

/-- C10: if the reaction to a rotation in signal change mode fails — the change
signal does not parse, or its delivery returns an error — the task is killed and the
goroutine returns at once, with no `StopRenewToken` call, although the renewal
stream started for the current token is active at that point: in the two concrete
runs the only `StopRenewToken` call is the one for the first token's renewal-stream
failure, and the trace ends at the kill that follows the second token's successful
renewal start. -/
theorem reactor_fatal_no_stoprenew_c10 :
    (∀ (cs tn e t : String) (sends : List (Option String)),
      publishReact ⟨vaultChangeModeSignal, cs, Except.error e, tn⟩ t true sends =
        ([Event.reactInvoke t, Event.kill ("failed to parse signal: " ++ e) true],
         PubOut.killed)) ∧
    (∀ (cs tn s t m : String) (srest : List (Option String)),
      publishReact ⟨vaultChangeModeSignal, cs, Except.ok s, tn⟩ t true
          (some m :: srest) =
        ([Event.reactInvoke t, Event.reactSignal s false,
          Event.kill ("failed to send signal: " ++ m) true], PubOut.killed)) ∧
    (∀ (cfg : Config) (t : String) (u : Bool) (sg : List (Option String)),
      stopRenews (publishReact cfg t u sg).1 = []) ∧
    (run ⟨"signal", "QQQ", Except.error "invalid signal QQQ", "web"⟩ ""
        ⟨[DeriveResp.ok [("web", "t1")], DeriveResp.ok [("web", "t2")]],
         [true, true], [true, true], [true], [false, false], [], []⟩ 5 =
      ([Event.clear, Event.deriveSuccess "t1", Event.write "t1" true,
        Event.renewStart "t1" true, Event.setFuture "t1", Event.stopRenew "t1",
        Event.clear, Event.deriveSuccess "t2", Event.write "t2" true,
        Event.renewStart "t2" true, Event.setFuture "t2", Event.reactInvoke "t2",
        Event.kill "failed to parse signal: invalid signal QQQ" true],
       Outcome.exited)) ∧
    (run ⟨"signal", "SIGHUP", Except.ok "SIGHUP", "web"⟩ ""
        ⟨[DeriveResp.ok [("web", "t1")], DeriveResp.ok [("web", "t2")]],
         [true, true], [true, true], [true], [false, false], [], [some "esrch"]⟩ 5 =
      ([Event.clear, Event.deriveSuccess "t1", Event.write "t1" true,
        Event.renewStart "t1" true, Event.setFuture "t1", Event.stopRenew "t1",
        Event.clear, Event.deriveSuccess "t2", Event.write "t2" true,
        Event.renewStart "t2" true, Event.setFuture "t2", Event.reactInvoke "t2",
        Event.reactSignal "SIGHUP" false,
        Event.kill "failed to send signal: esrch" true],
       Outcome.exited)) := by
  refine ⟨fun cs tn e t sends => by simp [publishReact, vaultChangeModeSignal],
    fun cs tn s t m srest => by simp [publishReact, vaultChangeModeSignal],
    fun cfg t u sg => ?_, by decide, by decide⟩
  unfold publishReact
  cases u with
  | false => simp [stopRenews]
  | true =>
    by_cases hs : cfg.changeMode == vaultChangeModeSignal
    · simp only [hs, if_true]
      cases cfg.sigParse with
      | error e => simp [stopRenews]
      | ok s =>
        cases sg with
        | nil => simp [stopRenews]
        | cons o os => cases o <;> simp [stopRenews]
    · by_cases hr : cfg.changeMode == vaultChangeModeRestart <;>
        simp [hs, hr, stopRenews]

theorem publishReact_reactInvokes (cfg : Config) (t : String) (u : Bool)
    (sg : List (Option String)) :
    reactInvokes (publishReact cfg t u sg).1 = if u then [t] else [] := by
  unfold publishReact
  cases u with
  | false => simp [reactInvokes]
  | true =>
    by_cases hs : cfg.changeMode == vaultChangeModeSignal
    · simp only [hs, if_true]
      cases cfg.sigParse with
      | error e => simp [reactInvokes]
      | ok s =>
        cases sg with
        | nil => simp [reactInvokes]
        | cons o os => cases o <;> simp [reactInvokes]
    · by_cases hr : cfg.changeMode == vaultChangeModeRestart <;>
        simp [hs, hr, reactInvokes]

theorem publishReact_no_set_derive (cfg : Config) (t : String) (u : Bool)
    (sg : List (Option String)) :
    setFutures (publishReact cfg t u sg).1 = [] ∧
    deriveSuccesses (publishReact cfg t u sg).1 = [] := by
  unfold publishReact
  cases u with
  | false => simp [setFutures, deriveSuccesses]
  | true =>
    by_cases hs : cfg.changeMode == vaultChangeModeSignal
    · simp only [hs, if_true]
      cases cfg.sigParse with
      | error e => simp [setFutures, deriveSuccesses]
      | ok s =>
        cases sg with
        | nil => simp [setFutures, deriveSuccesses]
        | cons o os => cases o <;> simp [setFutures, deriveSuccesses]
    · by_cases hr : cfg.changeMode == vaultChangeModeRestart <;>
        simp [hs, hr, setFutures, deriveSuccesses]

theorem publishReact_proceed_false (cfg : Config) (t : String)
    (sg sg' : List (Option String)) (u' : Bool)
    (h : (publishReact cfg t true sg).2 = PubOut.proceed u' sg') : u' = false := by
  unfold publishReact at h
  by_cases hs : cfg.changeMode == vaultChangeModeSignal
  · simp only [hs, if_true] at h
    cases hp : cfg.sigParse with
    | error e => rw [hp] at h; simp at h
    | ok s =>
      rw [hp] at h
      cases sg with
      | nil => simp at h
      | cons o os =>
        cases o with
        | none => simp at h; exact h.1
        | some m => simp at h
  · by_cases hr : cfg.changeMode == vaultChangeModeRestart <;>
      simp [hs, hr] at h <;> exact h.1

theorem deriveLoop_no_react_set (cfg : Config) :
    ∀ (ds : List DeriveResp) (sc : List Bool) (a : Nat),
      reactInvokes (deriveLoop cfg ds sc a).1 = [] ∧
      setFutures (deriveLoop cfg ds sc a).1 = [] := by
  intro ds
  induction ds with
  | nil => intro sc a; simp [deriveLoop, reactInvokes, setFutures]
  | cons d rest ih =>
    intro sc a
    cases d with
    | ok tokens => simp [deriveLoop, reactInvokes, setFutures]
    | err ss rcv msg =>
      cases ss with
      | true => simp [deriveLoop, reactInvokes, setFutures]
      | false =>
        cases rcv with
        | false => simp [deriveLoop, reactInvokes, setFutures]
        | true =>
          cases sc with
          | nil => simp [deriveLoop, reactInvokes, setFutures]
          | cons c cs =>
            cases c with
            | true => simp [deriveLoop, reactInvokes, setFutures]
            | false => simpa [deriveLoop, reactInvokes, setFutures] using ih cs (a + 1)

theorem deriveLoop_success_facts (cfg : Config) :
    ∀ (ds : List DeriveResp) (sc : List Bool) (a : Nat) (evs : List Event)
      (t : String) (ds' : List DeriveResp) (sc' : List Bool),
      deriveLoop cfg ds sc a = (evs, DeriveOut.success t ds' sc') →
      (∃ tokens, DeriveResp.ok tokens ∈ ds ∧ t = lookupToken tokens cfg.taskName) ∧
      (∀ x ∈ ds', x ∈ ds) ∧ 1 ≤ (deriveSuccesses evs).length := by
  intro ds
  induction ds with
  | nil => intro sc a evs t ds' sc' h; simp [deriveLoop] at h
  | cons d rest ih =>
    intro sc a evs t ds' sc' h
    cases d with
    | ok tokens =>
      simp only [deriveLoop] at h
      obtain ⟨hevs, hout⟩ := Prod.mk.injEq .. ▸ h
      cases hout
      cases hevs
      refine ⟨⟨tokens, List.mem_cons_self .., rfl⟩, ?_, ?_⟩
      · intro x hx; exact List.mem_cons_of_mem _ hx
      · simp [deriveSuccesses]
    | err ss rcv msg =>
      cases ss with
      | true => simp [deriveLoop] at h
      | false =>
        cases rcv with
        | false => simp [deriveLoop] at h
        | true =>
          cases sc with
          | nil => simp [deriveLoop] at h
          | cons c cs =>
            cases c with
            | true => simp [deriveLoop] at h
            | false =>
              simp only [deriveLoop, Bool.false_eq_true, if_false, Bool.not_true,
                if_true] at h
              obtain ⟨hevs, hout⟩ := Prod.mk.injEq .. ▸ h
              obtain ⟨hex, hmem, hlen⟩ := ih cs (a + 1) (deriveLoop cfg rest cs (a + 1)).1
                t ds' sc' (by rw [← hout])
              refine ⟨⟨hex.choose, List.mem_cons_of_mem _ hex.choose_spec.1,
                hex.choose_spec.2⟩, fun x hx => List.mem_cons_of_mem _ (hmem x hx), ?_⟩
              rw [← hevs]
              simpa [deriveSuccesses] using hlen

theorem acquireToken_no_react_set (cfg : Config) (tok : String) (env : Env) :
    reactInvokes (acquireToken cfg tok env).1 = [] ∧
    setFutures (acquireToken cfg tok env).1 = [] := by
  unfold acquireToken
  by_cases h : tok == ""
  · simp only [h, if_true]
    have hne := deriveLoop_no_react_set cfg env.derives env.sleepCancels 0
    cases hd : deriveLoop cfg env.derives env.sleepCancels 0 with
    | mk devs dout =>
      rw [hd] at hne
      cases dout with
      | blocked => simpa using hne
      | exited => simpa using hne
      | success t ds sc =>
        cases env.writes with
        | nil => simpa using hne
        | cons w ws =>
          cases w with
          | true =>
            simp only [if_true]
            constructor
            · rw [reactInvokes_append, hne.1]; simp [reactInvokes]
            · rw [setFutures_append, hne.2]; simp [setFutures]
          | false =>
            simp only [Bool.false_eq_true, if_false]
            constructor
            · rw [reactInvokes_append, hne.1]; simp [reactInvokes]
            · rw [setFutures_append, hne.2]; simp [setFutures]
  · simp [h, reactInvokes, setFutures]

theorem acquireToken_ready_facts (cfg : Config) (tok : String) (env : Env)
    (evs : List Event) (t : String) (env' : Env)
    (h : acquireToken cfg tok env = (evs, AcqOut.ready t env')) :
    (∀ x ∈ env'.derives, x ∈ env.derives) ∧
    (tok = "" →
      (∃ tokens, DeriveResp.ok tokens ∈ env.derives ∧
        t = lookupToken tokens cfg.taskName) ∧
      1 ≤ (deriveSuccesses evs).length) ∧
    (tok ≠ "" → t = tok ∧ env' = env) := by
  unfold acquireToken at h
  by_cases he : tok == ""
  · have he' : tok = "" := by simpa using he
    simp only [he, if_true] at h
    cases hd : deriveLoop cfg env.derives env.sleepCancels 0 with
    | mk devs dout =>
      rw [hd] at h
      cases dout with
      | blocked => simp at h
      | exited => simp at h
      | success td ds sc =>
        cases hw : env.writes with
        | nil => rw [hw] at h; simp at h
        | cons w ws =>
          rw [hw] at h
          cases w with
          | false => simp at h
          | true =>
            simp only [if_true] at h
            obtain ⟨hevs, hout⟩ := Prod.mk.injEq .. ▸ h
            injection hout with ht henv
            subst henv
            subst ht
            subst hevs
            obtain ⟨hex, hmem, hlen⟩ :=
              deriveLoop_success_facts cfg env.derives env.sleepCancels 0 devs td ds sc hd
            refine ⟨fun x hx => hmem x hx, fun _ => ⟨hex, ?_⟩, fun hne => absurd he' hne⟩
            rw [deriveSuccesses_append]
            simp only [List.length_append]
            omega
  · have he' : ¬tok = "" := by simpa using he
    simp only [he, Bool.false_eq_true, if_false] at h
    obtain ⟨hevs, hout⟩ := Prod.mk.injEq .. ▸ h
    cases hout
    exact ⟨fun x hx => hx, fun habs => absurd habs he', fun _ => ⟨rfl, rfl⟩⟩

theorem renewPhase_facts (cfg : Config) (t : String) (u : Bool) (env : Env) :
    (∀ s ∈ setFutures (renewPhase cfg t u env).1, s = t) ∧
    deriveSuccesses (renewPhase cfg t u env).1 = [] ∧
    (reactInvokes (renewPhase cfg t u env).1).length ≤ cond u 1 0 ∧
    (∀ u' ft' env', (renewPhase cfg t u env).2 = IterOut.next u' ft' env' →
      env'.derives = env.derives) := by
  unfold renewPhase
  cases hrs : env.renewStarts with
  | nil =>
    refine ⟨by simp [setFutures_nil], by simp [deriveSuccesses_nil],
      by simp [reactInvokes_nil], ?_⟩
    intro u' ft' env' h; simp at h
  | cons r rs =>
    cases r with
    | false =>
      refine ⟨by simp [setFutures_cons, setFutures_nil],
        by simp [deriveSuccesses_cons, deriveSuccesses_nil],
        by simp [reactInvokes_cons, reactInvokes_nil], ?_⟩
      intro u' ft' env' h
      simp only [Bool.false_eq_true, if_false] at h
      injection h with h1 h2 h3
      subst h3
      rfl
    | true =>
      simp only [if_true]
      cases hpub : publishReact cfg t u env.sigSends with
      | mk pevs pout =>
        have hpr : reactInvokes pevs = if u then [t] else [] := by
          have := publishReact_reactInvokes cfg t u env.sigSends
          rw [hpub] at this; exact this
        have hps := publishReact_no_set_derive cfg t u env.sigSends
        rw [hpub] at hps
        have hps1 : setFutures pevs = [] := hps.1
        have hps2 : deriveSuccesses pevs = [] := hps.2
        have hlen : (reactInvokes pevs).length ≤ cond u 1 0 := by
          rw [hpr]; cases u <;> simp
        cases pout with
        | killed =>
          refine ⟨?_, ?_, ?_, ?_⟩
          · intro s hs
            simp [setFutures_cons, hps1] at hs
            exact hs
          · simp [deriveSuccesses_cons, hps2]
          · simpa [reactInvokes_cons] using hlen
          · intro u' ft' env' h; simp at h
        | blocked =>
          refine ⟨?_, ?_, ?_, ?_⟩
          · intro s hs
            simp [setFutures_cons, hps1] at hs
            exact hs
          · simp [deriveSuccesses_cons, hps2]
          · simpa [reactInvokes_cons] using hlen
          · intro u' ft' env' h; simp at h
        | proceed u2 sends =>
          cases hrf : env.renewFails with
          | nil =>
            refine ⟨?_, ?_, ?_, ?_⟩
            · intro s hs
              simp [setFutures_cons, hps1] at hs
              exact hs
            · simp [deriveSuccesses_cons, hps2]
            · simpa [reactInvokes_cons] using hlen
            · intro u' ft' env' h; simp at h
          | cons f fs =>
            cases f with
            | true =>
              refine ⟨?_, ?_, ?_, ?_⟩
              · intro s hs
                simp [setFutures_cons, setFutures_append, setFutures_nil, hps1] at hs
                exact hs
              · simp [deriveSuccesses_cons, deriveSuccesses_append,
                  deriveSuccesses_nil, hps2]
              · simpa [reactInvokes_cons, reactInvokes_append, reactInvokes_nil]
                  using hlen
              · intro u' ft' env' h
                simp only [if_true] at h
                injection h with h1 h2 h3
                subst h3
                rfl
            | false =>
              refine ⟨?_, ?_, ?_, ?_⟩
              · intro s hs
                simp [setFutures_cons, setFutures_append, setFutures_nil, hps1] at hs
                exact hs
              · simp [deriveSuccesses_cons, deriveSuccesses_append,
                  deriveSuccesses_nil, hps2]
              · simpa [reactInvokes_cons, reactInvokes_append, reactInvokes_nil]
                  using hlen
              · intro u' ft' env' h; simp at h

theorem GoodDerives_mono (cfg : Config) (l l' : List DeriveResp)
    (hsub : ∀ x ∈ l', x ∈ l) (h : GoodDerives cfg l) : GoodDerives cfg l' :=
  fun tokens hm => h tokens (hsub _ hm)

theorem runIter_facts (cfg : Config) (t : String) (u : Bool) (ft : String) (env : Env) :
    (reactInvokes (runIter cfg t u ft env).1).length ≤ cond u 1 0 ∧
    (t = "" → ∀ u' ft' env', (runIter cfg t u ft env).2 = IterOut.next u' ft' env' →
      1 ≤ (deriveSuccesses (runIter cfg t u ft env).1).length) ∧
    (t = "" → 1 ≤ (reactInvokes (runIter cfg t u ft env).1).length →
      1 ≤ (deriveSuccesses (runIter cfg t u ft env).1).length) ∧
    (GoodDerives cfg env.derives →
      (∀ s ∈ setFutures (runIter cfg t u ft env).1, s ≠ "") ∧
      (∀ u' ft' env', (runIter cfg t u ft env).2 = IterOut.next u' ft' env' →
        GoodDerives cfg env'.derives)) := by
  unfold runIter
  cases htc : env.topCancels with
  | nil =>
    refine ⟨by simp [reactInvokes_nil], ?_, ?_, ?_⟩
    · intro _ u' ft' env' h; simp at h
    · intro _ h; simp [reactInvokes_nil] at h
    · intro hg
      exact ⟨by intro s hs; simp [setFutures_nil] at hs, fun u' ft' env' h => by simp at h⟩
  | cons c tc =>
    cases c with
    | true =>
      refine ⟨by simp [reactInvokes_cons, reactInvokes_nil], ?_, ?_, ?_⟩
      · intro _ u' ft' env' h; simp at h
      · intro _ h; simp [reactInvokes_cons, reactInvokes_nil] at h
      · intro hg
        refine ⟨by intro s hs; simp [setFutures_cons, setFutures_nil] at hs,
          fun u' ft' env' h => by simp at h⟩
    | false =>
      simp only [Bool.false_eq_true, if_false]
      cases hacq : acquireToken cfg t { env with topCancels := tc } with
      | mk aevs aout =>
        have hanrs := acquireToken_no_react_set cfg t { env with topCancels := tc }
        rw [hacq] at hanrs
        have har : reactInvokes aevs = [] := hanrs.1
        have has : setFutures aevs = [] := hanrs.2
        cases aout with
        | blocked =>
          refine ⟨by simp [reactInvokes_cons, har], ?_, ?_, ?_⟩
          · intro _ u' ft' env' h; simp at h
          · intro _ h
            simp [reactInvokes_cons, har] at h
          · intro hg
            refine ⟨?_, fun u' ft' env' h => by simp at h⟩
            intro s hs
            simp [setFutures_cons, has] at hs
        | exited =>
          refine ⟨by simp [reactInvokes_cons, har], ?_, ?_, ?_⟩
          · intro _ u' ft' env' h; simp at h
          · intro _ h
            simp [reactInvokes_cons, har] at h
          · intro hg
            refine ⟨?_, fun u' ft' env' h => by simp at h⟩
            intro s hs
            simp [setFutures_cons, has] at hs
        | ready t2 env2 =>
          obtain ⟨hmem, hempty, hkept⟩ :=
            acquireToken_ready_facts cfg t { env with topCancels := tc } aevs t2 env2 hacq
          obtain ⟨hrset, hrder, hrlen, hrnext⟩ := renewPhase_facts cfg t2 u env2
          refine ⟨?_, ?_, ?_, ?_⟩
          · simp only [reactInvokes_cons, reactInvokes_append]
            simpa [har] using hrlen
          · intro ht u' ft' env' h
            obtain ⟨hex, hdlen⟩ := hempty ht
            simp only [deriveSuccesses_cons, deriveSuccesses_append]
            simp only [List.length_append]
            omega
          · intro ht h
            obtain ⟨hex, hdlen⟩ := hempty ht
            simp only [deriveSuccesses_cons, deriveSuccesses_append]
            simp only [List.length_append]
            omega
          · intro hg
            have ht2ne : t2 ≠ "" := by
              by_cases ht : t = ""
              · obtain ⟨⟨tokens, htok, hteq⟩, _⟩ := hempty ht
                have := hg tokens htok
                rw [hteq]
                exact this
              · exact (hkept ht).1 ▸ ht
            constructor
            · intro s hs
              simp only [setFutures_cons, setFutures_append] at hs
              simp [has] at hs
              rw [hrset s hs]
              exact ht2ne
            · intro u' ft' env' h
              have henvd : env'.derives = env2.derives := hrnext u' ft' env' h
              rw [henvd]
              exact GoodDerives_mono cfg env.derives env2.derives hmem hg

theorem runLoop_succ (cfg : Config) (fuel : Nat) (t : String) (u : Bool)
    (ft : String) (env : Env) :
    runLoop cfg (fuel + 1) t u ft env =
      match runIter cfg t u ft env with
      | (evs, IterOut.exited) => (evs, Outcome.exited)
      | (evs, IterOut.blocked) => (evs, Outcome.blocked)
      | (evs, IterOut.next u' ft' env') =>
        (evs ++ (runLoop cfg fuel "" u' ft' env').1,
         (runLoop cfg fuel "" u' ft' env').2) := rfl

theorem runLoop_react_derive (cfg : Config) :
    ∀ (fuel : Nat) (t : String) (u : Bool) (ft : String) (env : Env),
      1 ≤ (reactInvokes (runLoop cfg fuel t u ft env).1).length →
      (cond u 0 1) + (if t = "" then 1 else 0) ≤
        (deriveSuccesses (runLoop cfg fuel t u ft env).1).length := by
  intro fuel
  induction fuel with
  | zero =>
    intro t u ft env h
    simp [runLoop, reactInvokes_nil] at h
  | succ fuel' ih =>
    intro t u ft env h
    obtain ⟨hR, hD1, hD2, _⟩ := runIter_facts cfg t u ft env
    rw [runLoop_succ] at h ⊢
    cases hit : runIter cfg t u ft env with
    | mk evs out =>
      rw [hit] at hR hD1 hD2 h
      cases out with
      | exited =>
        have h' : 1 ≤ (reactInvokes evs).length := h
        have hD2' : t = "" → 1 ≤ (reactInvokes evs).length →
            1 ≤ (deriveSuccesses evs).length := hD2
        show (cond u 0 1) + (if t = "" then 1 else 0) ≤ (deriveSuccesses evs).length
        cases u with
        | false =>
          have h0 : (reactInvokes evs).length ≤ 0 := hR
          exact absurd h' (by omega)
        | true =>
          by_cases ht : t = ""
          · simpa [ht] using hD2' ht h'
          · simp [ht]
      | blocked =>
        have h' : 1 ≤ (reactInvokes evs).length := h
        have hD2' : t = "" → 1 ≤ (reactInvokes evs).length →
            1 ≤ (deriveSuccesses evs).length := hD2
        show (cond u 0 1) + (if t = "" then 1 else 0) ≤ (deriveSuccesses evs).length
        cases u with
        | false =>
          have h0 : (reactInvokes evs).length ≤ 0 := hR
          exact absurd h' (by omega)
        | true =>
          by_cases ht : t = ""
          · simpa [ht] using hD2' ht h'
          · simp [ht]
      | next u' ft' env' =>
        have hD2' : t = "" → 1 ≤ (reactInvokes evs).length →
            1 ≤ (deriveSuccesses evs).length := hD2
        have hD1' : t = "" → 1 ≤ (deriveSuccesses evs).length := fun ht =>
          hD1 ht u' ft' env' rfl
        have h' : 1 ≤ (reactInvokes
            (evs ++ (runLoop cfg fuel' "" u' ft' env').1)).length := h
        show (cond u 0 1) + (if t = "" then 1 else 0) ≤
          (deriveSuccesses (evs ++ (runLoop cfg fuel' "" u' ft' env').1)).length
        rw [reactInvokes_append, List.length_append] at h'
        rw [deriveSuccesses_append, List.length_append]
        by_cases hRe : 1 ≤ (reactInvokes evs).length
        · have hu : u = true := by
            cases u
            · have h0 : (reactInvokes evs).length ≤ 0 := hR
              exact absurd hRe (by omega)
            · rfl
          subst hu
          by_cases ht : t = ""
          · have := hD2' ht hRe
            simp [ht]
            omega
          · simp [ht]
        · have hRr : 1 ≤ (reactInvokes (runLoop cfg fuel' "" u' ft' env').1).length := by
            omega
          have ihh := ih "" u' ft' env' hRr
          cases u' with
          | false =>
            have ihh2 : 1 + 1 ≤
                (deriveSuccesses (runLoop cfg fuel' "" false ft' env').1).length := ihh
            have hb1 : (cond u 0 1 : Nat) ≤ 1 := by cases u <;> simp
            have hb2 : (if t = "" then (1 : Nat) else 0) ≤ 1 := by
              by_cases ht : t = "" <;> simp [ht]
            omega
          | true =>
            have ihh2 : 0 + 1 ≤
                (deriveSuccesses (runLoop cfg fuel' "" true ft' env').1).length := ihh
            have hb1 : (cond u 0 1 : Nat) ≤ 1 := by cases u <;> simp
            by_cases ht : t = ""
            · have hDe := hD1' ht
              simp [ht]
              omega
            · simp [ht]
              omega

theorem runLoop_set_nonempty (cfg : Config) :
    ∀ (fuel : Nat) (t : String) (u : Bool) (ft : String) (env : Env),
      GoodDerives cfg env.derives →
      ∀ s, s ∈ setFutures (runLoop cfg fuel t u ft env).1 → s ≠ "" := by
  intro fuel
  induction fuel with
  | zero =>
    intro t u ft env hg s hs
    simp [runLoop, setFutures_nil] at hs
  | succ fuel' ih =>
    intro t u ft env hg s hs
    obtain ⟨_, _, _, hset⟩ := runIter_facts cfg t u ft env
    obtain ⟨hsets, hnext⟩ := hset hg
    rw [runLoop_succ] at hs
    cases hit : runIter cfg t u ft env with
    | mk evs out =>
      rw [hit] at hsets hnext hs
      cases out with
      | exited =>
        have hsets' : ∀ x ∈ setFutures evs, x ≠ "" := hsets
        exact hsets' s hs
      | blocked =>
        have hsets' : ∀ x ∈ setFutures evs, x ≠ "" := hsets
        exact hsets' s hs
      | next u' ft' env' =>
        have hsets' : ∀ x ∈ setFutures evs, x ≠ "" := hsets
        have hnext' : GoodDerives cfg env'.derives := hnext u' ft' env' rfl
        have hs' : s ∈ setFutures (evs ++ (runLoop cfg fuel' "" u' ft' env').1) := hs
        rw [setFutures_append] at hs'
        rcases List.mem_append.mp hs' with hin | hin
        · exact hsets' s hin
        · exact ih "" u' ft' env' hnext' s hin

/-- C2, counterexample: a run seeded with a recovered token whose renewal stream
fails and which then re-derives once reaches exactly one successful derivation, yet
the ChangeReactor is invoked (once, with the newly derived token) — refuting the
claim's "in any run that reaches exactly one successful derivation it is invoked
zero times". -/
theorem react_single_derivation_c2_counterexample :
    deriveSuccesses (run ⟨"restart", "", Except.error "", "web"⟩ "tokR"
        ⟨[DeriveResp.ok [("web", "tok1")]], [true], [true, true], [true],
         [false, false], [], []⟩ 5).1 = ["tok1"] ∧
    reactInvokes (run ⟨"restart", "", Except.error "", "web"⟩ "tokR"
        ⟨[DeriveResp.ok [("web", "tok1")]], [true], [true, true], [true],
         [false, false], [], []⟩ 5).1 = ["tok1"] := by
  exact ⟨by decide, by decide⟩

/-- C2 (amended): the ChangeReactor block runs if and only if `updatedToken` is true
at the moment a token becomes known-renewable, and it clears `updatedToken`; in any
run started with an empty (non-recovered) initial token that reaches exactly one
successful derivation it is invoked zero times; a run seeded with a recovered token
can see it invoked after a single derivation.  In the canonical rotation run —
renewal-stream failure with change mode "restart", then a successful re-derivation
and renewal start — it is invoked exactly once, with the new token, and the updater
is then called with that token. -/
theorem react_iff_pending_c2 :
    (∀ (cfg : Config) (env : Env) (fuel : Nat),
      (deriveSuccesses (run cfg "" env fuel).1).length = 1 →
      reactInvokes (run cfg "" env fuel).1 = []) ∧
    (∀ (cfg : Config) (t : String) (u : Bool) (sends : List (Option String)),
      reactInvokes (publishReact cfg t u sends).1 = if u then [t] else []) ∧
    (∀ (cfg : Config) (t : String) (sends sends' : List (Option String)) (u' : Bool),
      (publishReact cfg t true sends).2 = PubOut.proceed u' sends' → u' = false) ∧
    (run ⟨"restart", "", Except.error "", "web"⟩ ""
        ⟨[DeriveResp.ok [("web", "tok1")], DeriveResp.ok [("web", "tok2")]],
         [true, true], [true, true], [true], [false, false], [], []⟩ 5).1 =
      [Event.clear, Event.deriveSuccess "tok1", Event.write "tok1" true,
       Event.renewStart "tok1" true, Event.setFuture "tok1", Event.stopRenew "tok1",
       Event.clear, Event.deriveSuccess "tok2", Event.write "tok2" true,
       Event.renewStart "tok2" true, Event.setFuture "tok2",
       Event.reactInvoke "tok2", Event.reactRestart, Event.updater "tok2"] ∧
    reactInvokes (run ⟨"restart", "", Except.error "", "web"⟩ ""
        ⟨[DeriveResp.ok [("web", "tok1")], DeriveResp.ok [("web", "tok2")]],
         [true, true], [true, true], [true], [false, false], [], []⟩ 5).1 =
      ["tok2"] := by
  refine ⟨?_, publishReact_reactInvokes,
    fun cfg t sends sends' u' h => publishReact_proceed_false cfg t sends sends' u' h,
    by decide, by decide⟩
  intro cfg env fuel hD
  by_contra hne
  have h1 : 1 ≤ (reactInvokes (runLoop cfg fuel "" false "" env).1).length := by
    cases hre : reactInvokes (runLoop cfg fuel "" false "" env).1 with
    | nil => exact absurd hre hne
    | cons a l => simp [hre]
  have h2 := runLoop_react_derive cfg fuel "" false "" env h1
  have hD' : (deriveSuccesses (runLoop cfg fuel "" false "" env).1).length = 1 := hD
  simp at h2
  omega

theorem react_iff_pending_c2_witness :
    (deriveSuccesses (run ⟨"noop", "", Except.error "", "web"⟩ ""
        ⟨[DeriveResp.ok [("web", "t1")]], [true], [true], [], [false], [], []⟩ 2).1).length
      = 1 ∧
    reactInvokes (run ⟨"noop", "", Except.error "", "web"⟩ ""
        ⟨[DeriveResp.ok [("web", "t1")]], [true], [true], [], [false], [], []⟩ 2).1
      = [] ∧
    false = false :=
  ⟨by decide,
   react_iff_pending_c2.1 ⟨"noop", "", Except.error "", "web"⟩
     ⟨[DeriveResp.ok [("web", "t1")]], [true], [true], [], [false], [], []⟩ 2 (by decide),
   react_iff_pending_c2.2.2.1 ⟨"restart", "", Except.error "", "web"⟩ "t" [] [] false
     (by decide)⟩

/-- C6, counterexample: when a successful derive response lacks an entry for the
task name, the Go map lookup yields "", and after a successful renewal start the
future is set to the empty string — a waiter that observed the set state then reads
an empty token, refuting the claim. -/
theorem future_set_empty_c6_counterexample :
    (run ⟨"noop", "", Except.error "", "web"⟩ ""
        ⟨[DeriveResp.ok []], [true], [true], [], [false], [], []⟩ 1).1 =
      [Event.clear, Event.deriveSuccess "", Event.write "" true,
       Event.renewStart "" true, Event.setFuture ""] ∧
    setFutures (run ⟨"noop", "", Except.error "", "web"⟩ ""
        ⟨[DeriveResp.ok []], [true], [true], [], [false], [], []⟩ 1).1 = [""] := by
  exact ⟨by decide, by decide⟩

/-- C6 (amended): provided every successful derive response maps the task name to a
non-empty token, every token ever stored into the future by `Set` is non-empty, for
any initial (recovered or empty) token; without that proviso the supervisor itself
does not guarantee it — a successful response lacking the task's entry leads to the
empty string being set. -/
theorem future_set_nonempty_c6 (cfg : Config) (token0 : String) (env : Env)
    (fuel : Nat) (hgood : GoodDerives cfg env.derives) :
    ∀ s, s ∈ setFutures (run cfg token0 env fuel).1 → s ≠ "" :=
  runLoop_set_nonempty cfg fuel token0 false "" env hgood

theorem future_set_nonempty_c6_witness :
    GoodDerives ⟨"noop", "", Except.error "", "web"⟩ [DeriveResp.ok [("web", "t1")]] ∧
    "t1" ∈ setFutures (run ⟨"noop", "", Except.error "", "web"⟩ ""
        ⟨[DeriveResp.ok [("web", "t1")]], [true], [true], [], [false], [], []⟩ 1).1 ∧
    "t1" ≠ "" := by
  have hg : GoodDerives ⟨"noop", "", Except.error "", "web"⟩
      [DeriveResp.ok [("web", "t1")]] := by
    intro tokens hm
    simp at hm
    subst hm
    decide
  exact ⟨hg, by decide, future_set_nonempty_c6 ⟨"noop", "", Except.error "", "web"⟩ ""
    ⟨[DeriveResp.ok [("web", "t1")]], [true], [true], [], [false], [], []⟩ 1 hg "t1"
    (by decide)⟩

end NomadSpec
